import Mathlib

/-!
Verification of the gollum core against its specification.

Part 1 models the double-buffered streaming batcher of
producer/scribeStreamBuffer.go.  The Go code coordinates concurrent
appenders and a single flusher through the packed 32-bit word
activeSet (top bit = active array index, low 31 bits = writer count).
We embed the code as a sequential state machine: each Append and each
flush runs to completion atomically, which realises the serialization
order established by the atomic counter.  Machine integers (uint32)
become Nat with explicit reduction modulo 2 to the 32; contentLen and
maxContentLen are Go int values that stay small, embedded as Nat.

The external scribe.LogEntry carries a category and a message string;
a Go nil pointer in the entry array is Option.none.  The formatter
(shared.Formatter) is an external collaborator: PrepareMessage fixes a
formatted payload, Len returns its length and String its content, so
Append takes the formatted payload directly and its length is the
length of that payload.
-/

namespace Gollum

/-- External scribe.LogEntry: category and message, both set by Append. -/
structure LogEntry where
  category : String
  message : String
deriving DecidableEq, Repr

/-- scribeMessageQueue: entry array (nil = none), content length, done count. -/
structure ScribeMessageQueue where
  buffer : List (Option LogEntry)
  contentLen : Nat
  doneCount : Nat
deriving DecidableEq, Repr

/-- Design constant scribeBufferGrowSize = 256. -/
def scribeBufferGrowSize : Nat := 256

/-- newMessageQueue: buffer of scribeBufferGrowSize nil entries, counters zero. -/
def newMessageQueue : ScribeMessageQueue :=
  { buffer := List.replicate scribeBufferGrowSize none
    contentLen := 0
    doneCount := 0 }

/-- scribeStreamBuffer: the two queues, the packed coordination word and the
maximum content length.  lastFlush, format and the flush mutex are external
(time, formatter, lock) and are not part of the sequential state. -/
structure ScribeStreamBuffer where
  queue0 : ScribeMessageQueue
  queue1 : ScribeMessageQueue
  activeSet : Nat
  maxContentLen : Nat
deriving DecidableEq, Repr

/-- Read batch.queue at an index (0 or 1). -/
def ScribeStreamBuffer.getQueue (batch : ScribeStreamBuffer) (i : Nat) :
    ScribeMessageQueue :=
  if i = 0 then batch.queue0 else batch.queue1

/-- Write batch.queue at an index (0 or 1). -/
def ScribeStreamBuffer.setQueue (batch : ScribeStreamBuffer) (i : Nat)
    (q : ScribeMessageQueue) : ScribeStreamBuffer :=
  if i = 0 then { batch with queue0 := q } else { batch with queue1 := q }

/-- createScribeStreamBuffer: two fresh queues, activeSet 0. -/
def createScribeStreamBuffer (maxContentLen : Nat) : ScribeStreamBuffer :=
  { queue0 := newMessageQueue
    queue1 := newMessageQueue
    activeSet := 0
    maxContentLen := maxContentLen }

/-- Result of one Append call: the new batch state, the accepted flag
returned to the caller, and whether the oversize error was logged. -/
structure AppendResult where
  batch : ScribeStreamBuffer
  accepted : Bool
  loggedOversize : Bool
deriving DecidableEq, Repr

/-- scribeStreamBuffer.Append.  msg is the formatted payload produced by
format.PrepareMessage / format.String, so format.Len is msg.length.
atomic.AddUint32 is addition modulo 2 to the 32; activeSet >>> 31 is
division by 2 to the 31; activeSet &&& 0x7FFFFFFF is reduction modulo
2 to the 31; the uint32 subtraction of 1 adds 2 to the 32 minus 1 and
reduces.  The deferred doneCount increment (uint32) runs on every
return path.  Growing the array appends scribeBufferGrowSize nil
slots: Go allocates length messageIdx + scribeBufferGrowSize and
copies the old content, and the growth branch runs exactly when
messageIdx equals the old length. -/
def ScribeStreamBuffer.Append (batch : ScribeStreamBuffer)
    (msg : String) (category : String) : AppendResult :=
  let activeSet := (batch.activeSet + 1) % 2 ^ 32
  let activeIdx := activeSet / 2 ^ 31
  let messageIdx := (activeSet % 2 ^ 31 + (2 ^ 32 - 1)) % 2 ^ 32
  let batch1 := { batch with activeSet := activeSet }
  let activeQueue := batch1.getQueue activeIdx
  let messageLength := msg.length
  if activeQueue.contentLen + messageLength ≥ batch1.maxContentLen then
    if messageLength > batch1.maxContentLen then
      -- Log.Error: message too large; dropped forever.
      { batch := batch1.setQueue activeIdx
          { activeQueue with doneCount := (activeQueue.doneCount + 1) % 2 ^ 32 }
        accepted := true
        loggedOversize := true }
    else
      { batch := batch1.setQueue activeIdx
          { activeQueue with doneCount := (activeQueue.doneCount + 1) % 2 ^ 32 }
        accepted := false
        loggedOversize := false }
  else
    let buffer :=
      if messageIdx = activeQueue.buffer.length then
        activeQueue.buffer ++ List.replicate scribeBufferGrowSize none
      else
        activeQueue.buffer
    let buffer := buffer.set messageIdx (some { category := category, message := msg })
    { batch := batch1.setQueue activeIdx
        { buffer := buffer
          contentLen := activeQueue.contentLen + messageLength
          doneCount := (activeQueue.doneCount + 1) % 2 ^ 32 }
      accepted := true
      loggedOversize := false }

/-- scribeStreamBuffer.isEmpty: low 31 bits of activeSet are zero. -/
def ScribeStreamBuffer.isEmpty (batch : ScribeStreamBuffer) : Bool :=
  batch.activeSet % 2 ^ 31 = 0

/-- scribeStreamBuffer.flush, sequentialised.  The swap toggles the top bit
and zeroes the writer count; the spin on writerCount = doneCount exits at
once because every Append has returned in the sequential model; the
asynchronous worker (send buffer[0:writerCount] to scribe.Log, zero the
counters) runs to completion here.  Returns the new state and the slice
passed to scribe.Log, none when the batch was empty.  Go slicing
buffer[:writerCount] is List.take writerCount (writerCount never exceeds
the buffer length in reachable states). -/
def ScribeStreamBuffer.flush (batch : ScribeStreamBuffer) :
    ScribeStreamBuffer × Option (List (Option LogEntry)) :=
  if batch.isEmpty then
    (batch, none)
  else
    let flushSet := batch.activeSet
    -- batch.activeSet &&& 0x80000000 ≠ 0 tests the top bit, i.e. 2^31 ≤ activeSet.
    let newActiveSet := if 2 ^ 31 ≤ batch.activeSet then 0 else 2 ^ 31
    let flushIdx := flushSet / 2 ^ 31
    let writerCount := flushSet % 2 ^ 31
    let flushQueue := batch.getQueue flushIdx
    let out := flushQueue.buffer.take writerCount
    let batch1 := { batch with activeSet := newActiveSet }
    (batch1.setQueue flushIdx { flushQueue with contentLen := 0, doneCount := 0 },
     some out)

/-- One operation on the batcher in serialization order. -/
inductive ScribeOp where
  | append (msg category : String)
  | flush
deriving DecidableEq, Repr

/-- The storing condition of Append in a given state: the active queue after
the atomic increment has room, i.e. contentLen + len < maxContentLen (the
negation of the refusal test in Append). -/
def ScribeStreamBuffer.storesMessage (batch : ScribeStreamBuffer)
    (msg : String) : Bool :=
  let activeSet := (batch.activeSet + 1) % 2 ^ 32
  let activeQueue := batch.getQueue (activeSet / 2 ^ 31)
  activeQueue.contentLen + msg.length < batch.maxContentLen

/-- Result of running a sequence of operations: final state, the slices
passed to scribe.Log by the flushes in order, and the ghost list of the
entries actually stored by the Append calls in serialization order. -/
structure RunResult where
  batch : ScribeStreamBuffer
  sinkBatches : List (List (Option LogEntry))
  stored : List LogEntry
deriving DecidableEq, Repr

/-- Run a sequence of batcher operations from a state. -/
def runOps (batch : ScribeStreamBuffer) : List ScribeOp → RunResult
  | [] => { batch := batch, sinkBatches := [], stored := [] }
  | ScribeOp.append msg category :: ops =>
      let storedHere :=
        if batch.storesMessage msg then
          [{ category := category, message := msg : LogEntry }]
        else
          []
      let r := runOps (batch.Append msg category).batch ops
      { r with stored := storedHere ++ r.stored }
  | ScribeOp.flush :: ops =>
      let f := batch.flush
      let r := runOps f.1 ops
      { r with sinkBatches := f.2.toList ++ r.sinkBatches }

/-- Number of append operations in a list of operations. -/
def countAppends : List ScribeOp → Nat
  | [] => 0
  | ScribeOp.append _ _ :: ops => countAppends ops + 1
  | ScribeOp.flush :: ops => countAppends ops

/-- Every append operation of the sequence stores its message (none is
refused by the threshold and none is oversize-dropped). -/
def allAppendsStore (batch : ScribeStreamBuffer) : List ScribeOp → Bool
  | [] => true
  | ScribeOp.append msg category :: ops =>
      batch.storesMessage msg && allAppendsStore (batch.Append msg category).batch ops
  | ScribeOp.flush :: ops => allAppendsStore (batch.flush).1 ops

/-- The pending entries of the active side: the first writerCount slots of
the active queue, exactly the part a flush would hand to the sink. -/
def ScribeStreamBuffer.activeResidue (batch : ScribeStreamBuffer) :
    List (Option LogEntry) :=
  (batch.getQueue (batch.activeSet / 2 ^ 31)).buffer.take (batch.activeSet % 2 ^ 31)

/-- The array index an Append call starting in this state acquires a slot
on: the top bit of the post-increment value of activeSet. -/
def ScribeStreamBuffer.acquiredIdx (batch : ScribeStreamBuffer) : Nat :=
  ((batch.activeSet + 1) % 2 ^ 32) / 2 ^ 31

/-- Invariant of the done counters over sequential runs: the active side
has completed exactly the writers counted in the low 31 bits of activeSet
(every Append has returned), the inactive side is quiescent. -/
def DInv (b : ScribeStreamBuffer) : Prop :=
  b.activeSet < 2 ^ 32 ∧
  (b.getQueue (b.activeSet / 2 ^ 31)).doneCount = b.activeSet % 2 ^ 31 ∧
  (b.getQueue (1 - b.activeSet / 2 ^ 31)).doneCount = 0

/-- Conservation invariant: pending lists the entries stored on the active
side since the last flush, and they occupy the first writerCount slots of
the active buffer in serialization order. -/
def ConsInv (b : ScribeStreamBuffer) (pending : List LogEntry) : Prop :=
  b.activeSet < 2 ^ 32 ∧
  pending.length = b.activeSet % 2 ^ 31 ∧
  (b.getQueue (b.activeSet / 2 ^ 31)).buffer.take (b.activeSet % 2 ^ 31) = pending.map some

/-!
Part 2 models the tailing file consumer (consumer.File, the unnamed
source file).  The filesystem is an external collaborator: symlink
resolution (filepath.EvalSymlinks), absolute-path resolution
(filepath.Abs) and index-file reading (ioutil.ReadFile) are passed in as
functions returning none on error.  The embedded base consumer
(shared.ConsumerBase) is external and its Configure is assumed to
succeed; file positions are int64 values embedded as Int.
-/

/-- Design constants of the file consumer. -/
def fileBufferGrowSize : Nat := 1024

/-- Offset option value selecting a read from the start of the file. -/
def fileOffsetStart : String := "Start"

/-- Offset option value selecting a read from the end of the file. -/
def fileOffsetEnd : String := "End"

/-- Offset option value selecting resumption from the persisted offset. -/
def fileOffsetContinue : String := "Current"

/-- The fileState enumeration of the consumer. -/
inductive fileState where
  | fileStateOpen
  | fileStateRead
  | fileStateDone
deriving DecidableEq, Repr

/-- The File consumer plugin state.  file is the held handle (none = nil);
the embedded ConsumerBase is external. -/
structure File where
  file : Option Nat
  fileName : String
  continueFileName : String
  delimiter : String
  seek : Nat
  seekOffset : Int
  persistSeek : Bool
  state : fileState
deriving DecidableEq, Repr

/-- The shared.PluginConfig reader as seen by Configure: HasValue and
GetString with a default (key normalization is internal to it). -/
structure PluginConfig where
  hasValue : String → Bool
  getString : String → String → String

/-- A configuration map for concrete test inputs. -/
def mkConf (entries : List (String × String)) : PluginConfig :=
  { hasValue := fun k => (entries.lookup k).isSome
    getString := fun k d => (entries.lookup k).getD d }

/-- A zero-valued File consumer, as the registry would hand to Configure. -/
def emptyFile : File :=
  { file := none
    fileName := ""
    continueFileName := ""
    delimiter := ""
    seek := 0
    seekOffset := 0
    persistSeek := false
    state := fileState.fileStateOpen }

/-- The escapeChars replacer of Configure: the literal two-character
sequences backslash-n, backslash-r, backslash-t become newline, carriage
return and tab. -/
def escapeChars (s : String) : String :=
  ((s.replace "\\n" "\n").replace "\\r" "\r").replace "\\t" "\t"

/-- File.Configure.  The embedded ConsumerBase.Configure is external and
assumed to succeed; a missing File key is the consumer error; the Offset
switch has a default branch that falls through to the End case. -/
def File.Configure (cons : File) (conf : PluginConfig) : Except String File :=
  if conf.hasValue "File" = false then
    Except.error "No file configured for consumer.File"
  else
    let cons1 := { cons with
      file := none
      fileName := conf.getString "File" ""
      delimiter := escapeChars (conf.getString "Delimiter" "\n")
      persistSeek := false }
    let offset := conf.getString "Offset" fileOffsetEnd
    if offset = fileOffsetStart then
      Except.ok { cons1 with seek := 1, seekOffset := 0 }
    else if offset = fileOffsetContinue then
      Except.ok { cons1 with seek := 1, seekOffset := 0, persistSeek := true }
    else
      Except.ok { cons1 with seek := 2, seekOffset := 0 }

/-- File.realFileName: resolve symlinks of the configured name, then make
the result absolute; each failing step falls back to the configured
name. -/
def File.realFileName (cons : File) (evalSymlinks abs : String → Option String) :
    String :=
  let baseFileName :=
    match evalSymlinks cons.fileName with
    | some p => p
    | none => cons.fileName
  match abs baseFileName with
  | some p => p
  | none => cons.fileName

/-- The path the Read-state open attempt passes to os.OpenFile: the source
evaluates cons.realFileName() afresh on every attempt, against the
filesystem as it is at that moment. -/
def File.readOpenPath (cons : File) (evalSymlinks abs : String → Option String) :
    String :=
  cons.realFileName evalSymlinks abs

/-- The pathDelimiter replacer of initFile: slash and dot become
underscore. -/
def replacePathChars (s : String) : String :=
  s.map fun c => if c = '/' then '_' else if c = '.' then '_' else c

/-- Sign handling of strconv.ParseInt: an optional leading plus or minus,
returning the sign and the remaining characters. -/
def splitSign (s : String) : Bool × List Char :=
  match s.data with
  | c :: rest =>
      if c = '+' then (false, rest)
      else if c = '-' then (true, rest)
      else (false, s.data)
  | [] => (false, [])

/-- Base-10 digit run of strconv.ParseInt: none unless the characters are
one or more ASCII digits; otherwise their value. -/
def parseDecDigits (digits : List Char) : Option Nat :=
  if digits.isEmpty || !(digits.all Char.isDigit) then none
  else some (digits.foldl (fun acc c => acc * 10 + (c.toNat - 48)) 0)

/-- Go strconv.ParseInt(s, 10, 64): the parsed int64 value and an ok flag.
On a syntax error the value is 0; on range overflow the value is the
closest int64 bound (Go returns ErrRange together with the clamped
value). -/
def goParseInt64 (s : String) : Int × Bool :=
  let p := splitSign s
  match parseDecDigits p.2 with
  | none => (0, false)
  | some n =>
      if p.1 then
        if (n : Int) > 2 ^ 63 then (-(2 ^ 63 : Int), false)
        else (-(n : Int), true)
      else
        if (n : Int) ≥ 2 ^ 63 then ((2 ^ 63 : Int) - 1, false)
        else ((n : Int), true)

/-- The mathematical reading of an index file used by the specification: the
signed decimal value of the whole content, none when the content is not a
signed decimal digit run.  Unlike goParseInt64 it carries no int64 range. -/
def decimalValue? (s : String) : Option Int :=
  let p := splitSign s
  match parseDecDigits p.2 with
  | none => none
  | some n => some (if p.1 then -(n : Int) else (n : Int))

/-- File.initFile.  Closes a held handle, and when persisting derives the
index path from the resolved source path, resets seekOffset to 0 and loads
the index file through Go ParseInt; the deferred setState(fileStateRead)
runs on exit.  readFile models ioutil.ReadFile (none = error). -/
def File.initFile (cons : File) (evalSymlinks abs : String → Option String)
    (readFile : String → Option String) : File :=
  let cons1 := { cons with file := none }
  let cons2 :=
    if cons1.persistSeek then
      let baseFileName := cons1.realFileName evalSymlinks abs
      let continueFileName := "/tmp/gollum" ++ replacePathChars baseFileName ++ ".idx"
      let cons1a := { cons1 with continueFileName := continueFileName, seekOffset := 0 }
      match readFile continueFileName with
      | none => cons1a
      | some fileContents =>
          { cons1a with seekOffset := (goParseInt64 fileContents).1 }
    else cons1
  { cons2 with state := fileState.fileStateRead }

/-- An externally visible action of the consumer on the file system and the
pipeline, in program order. -/
inductive FileOp where
  | seek (offset : Int) (whence : Nat)
  | post (data : String) (sequence : Nat)
  | writeIndex (path content : String) (perm : Nat)
deriving DecidableEq, Repr

/-- File.postAndPersist.  filePos is the value returned by
cons.file.Seek(0, 1), the current file position; writeFails tells whether
the ioutil.WriteFile of the index fails, and is ignored by the code.  The
permission 420 is the octal mode 0644.  Returns the new consumer state and
the emitted actions in order. -/
def File.postAndPersist (cons : File) (filePos : Int) (writeFails : Bool)
    (data : String) (sequence : Nat) : File × List FileOp :=
  let cons1 := { cons with seekOffset := filePos }
  (cons1,
   [FileOp.seek 0 1,
    FileOp.post data sequence,
    FileOp.writeIndex cons1.continueFileName (toString filePos) 420])

/-- The position established by cons.file.Seek(cons.seekOffset, cons.seek)
on a freshly opened handle (current position 0): whence 1 is relative to
the current position, whence 2 relative to the end of the file. -/
def File.openSeekPosition (cons : File) (fileSize : Int) : Int :=
  if cons.seek = 1 then 0 + cons.seekOffset
  else if cons.seek = 2 then fileSize + cons.seekOffset
  else cons.seekOffset

/-- Outcome of one open attempt of the Read state when no handle is held:
whether the open error was logged, how long the consumer slept, the
printFileOpenError flag afterwards, the state (it stays fileStateRead in
both branches) and whether a handle is now held. -/
structure OpenAttemptResult where
  logged : Bool
  sleptSeconds : Nat
  printFileOpenError : Bool
  state : fileState
  fileOpened : Bool
deriving DecidableEq, Repr

/-- One open attempt of the Read state: on error, log only when
printFileOpenError is still set, clear it and sleep 3 seconds; on success
re-arm the flag. -/
def File.openAttemptStep (printFileOpenError : Bool) (openOk : Bool) :
    OpenAttemptResult :=
  if openOk = false then
    { logged := printFileOpenError
      sleptSeconds := 3
      printFileOpenError := false
      state := fileState.fileStateRead
      fileOpened := false }
  else
    { logged := false
      sleptSeconds := 0
      printFileOpenError := true
      state := fileState.fileStateRead
      fileOpened := true }

/-- The log decisions of a run of consecutive open attempts with the given
outcomes (true = open succeeded), threading the printFileOpenError flag. -/
def openLogTrace (outcomes : List Bool) (printFileOpenError : Bool) : List Bool :=
  match outcomes with
  | [] => []
  | ok :: rest =>
      (File.openAttemptStep printFileOpenError ok).logged ::
        openLogTrace rest (File.openAttemptStep printFileOpenError ok).printFileOpenError

/-! Basic lemmas about getQueue and setQueue. -/

theorem getQueue_setQueue_same (batch : ScribeStreamBuffer) (i : Nat)
    (q : ScribeMessageQueue) : (batch.setQueue i q).getQueue i = q := by
  unfold ScribeStreamBuffer.setQueue ScribeStreamBuffer.getQueue
  by_cases h : i = 0 <;> simp [h]

theorem getQueue_setQueue_other (batch : ScribeStreamBuffer) (i j : Nat)
    (q : ScribeMessageQueue) (hij : i ≠ j) (hi : i ≤ 1) (hj : j ≤ 1) :
    (batch.setQueue i q).getQueue j = batch.getQueue j := by
  unfold ScribeStreamBuffer.setQueue ScribeStreamBuffer.getQueue
  interval_cases i <;> interval_cases j <;> simp_all

theorem setQueue_activeSet (batch : ScribeStreamBuffer) (i : Nat)
    (q : ScribeMessageQueue) : (batch.setQueue i q).activeSet = batch.activeSet := by
  unfold ScribeStreamBuffer.setQueue
  by_cases h : i = 0 <;> simp [h]

theorem setQueue_maxContentLen (batch : ScribeStreamBuffer) (i : Nat)
    (q : ScribeMessageQueue) :
    (batch.setQueue i q).maxContentLen = batch.maxContentLen := by
  unfold ScribeStreamBuffer.setQueue
  by_cases h : i = 0 <;> simp [h]

/-! Arithmetic facts about the packed coordination word.  Throughout,
hset bounds activeSet below 2 to the 32 (it is a uint32 value) and hwc
says the post-increment writer count stays below 2 to the 31, so the
increment neither wraps the word nor carries into the top bit. -/

theorem activeSet_succ_mod (a : Nat) (hset : a < 2 ^ 32)
    (hwc : a % 2 ^ 31 + 1 < 2 ^ 31) : (a + 1) % 2 ^ 32 = a + 1 := by
  omega

theorem activeSet_succ_idx (a : Nat) (hset : a < 2 ^ 32)
    (hwc : a % 2 ^ 31 + 1 < 2 ^ 31) : (a + 1) / 2 ^ 31 = a / 2 ^ 31 := by
  omega

theorem activeSet_succ_wc (a : Nat) (hset : a < 2 ^ 32)
    (hwc : a % 2 ^ 31 + 1 < 2 ^ 31) : (a + 1) % 2 ^ 31 = a % 2 ^ 31 + 1 := by
  omega

theorem messageIdx_eq_wc (a : Nat) (hset : a < 2 ^ 32)
    (hwc : a % 2 ^ 31 + 1 < 2 ^ 31) :
    ((a + 1) % 2 ^ 31 + (2 ^ 32 - 1)) % 2 ^ 32 = a % 2 ^ 31 := by
  omega

/-- Taking one element past a just-written slot splits off that element. -/
theorem take_set_succ (l : List α) (n : Nat) (x : α) (h : n < l.length) :
    (l.set n x).take (n + 1) = l.take n ++ [x] := by
  induction l generalizing n with
  | nil => simp at h
  | cons a l ih =>
      cases n with
      | zero => simp
      | succ m =>
          simp only [List.set_cons_succ, List.take_succ_cons, List.cons_append]
          rw [ih m (by simpa using h)]

/-- C1: the decision table of Append.  In a reachable state (activeSet a
uint32 value, one more writer does not overflow the low 31 bits, and the
writer count does not exceed the buffer length), an Append call behaves by
exactly three cases: a message longer than maxContentLen is logged and
reported accepted (discarded forever, nothing stored); otherwise if the
active side contentLen plus the message length reaches maxContentLen the
call returns accepted false and stores nothing; otherwise the entry is
stored in the reserved slot (index = the pre-increment writer count),
contentLen grows by the message length and the call returns accepted
true. -/
theorem append_decision_table (batch : ScribeStreamBuffer) (msg category : String)
    (hset : batch.activeSet < 2 ^ 32)
    (hwc : batch.activeSet % 2 ^ 31 + 1 < 2 ^ 31)
    (hbuf : batch.activeSet % 2 ^ 31 ≤ (batch.getQueue batch.acquiredIdx).buffer.length) :
    (msg.length > batch.maxContentLen →
      (batch.Append msg category).accepted = true ∧
      (batch.Append msg category).loggedOversize = true ∧
      ((batch.Append msg category).batch.getQueue batch.acquiredIdx).buffer =
        (batch.getQueue batch.acquiredIdx).buffer ∧
      ((batch.Append msg category).batch.getQueue batch.acquiredIdx).contentLen =
        (batch.getQueue batch.acquiredIdx).contentLen) ∧
    (msg.length ≤ batch.maxContentLen →
      batch.maxContentLen ≤ (batch.getQueue batch.acquiredIdx).contentLen + msg.length →
      (batch.Append msg category).accepted = false ∧
      (batch.Append msg category).loggedOversize = false ∧
      ((batch.Append msg category).batch.getQueue batch.acquiredIdx).buffer =
        (batch.getQueue batch.acquiredIdx).buffer ∧
      ((batch.Append msg category).batch.getQueue batch.acquiredIdx).contentLen =
        (batch.getQueue batch.acquiredIdx).contentLen) ∧
    ((batch.getQueue batch.acquiredIdx).contentLen + msg.length < batch.maxContentLen →
      (batch.Append msg category).accepted = true ∧
      (batch.Append msg category).loggedOversize = false ∧
      ((batch.Append msg category).batch.getQueue batch.acquiredIdx).contentLen =
        (batch.getQueue batch.acquiredIdx).contentLen + msg.length ∧
      (((batch.Append msg category).batch.getQueue batch.acquiredIdx).buffer)[batch.activeSet % 2 ^ 31]? =
        some (some { category := category, message := msg })) := by
  have e1 := activeSet_succ_mod batch.activeSet hset hwc
  have e3 := messageIdx_eq_wc batch.activeSet hset hwc
  have hidx : batch.acquiredIdx = batch.activeSet / 2 ^ 31 := by
    unfold ScribeStreamBuffer.acquiredIdx
    omega
  have e2 := activeSet_succ_idx batch.activeSet hset hwc
  have hdiv : batch.activeSet / 2 ^ 31 = 0 ∨ batch.activeSet / 2 ^ 31 = 1 := by omega
  rcases hdiv with h | h <;>
    simp only [hidx, h, ScribeStreamBuffer.Append, ScribeStreamBuffer.getQueue,
      ScribeStreamBuffer.setQueue, e1, e2, e3, eq_self_iff_true, Nat.one_ne_zero,
      ite_true, ite_false] at hbuf ⊢ <;>
    refine ⟨fun h1 => ?_, fun h1 h2 => ?_, fun h1 => ?_⟩
  · rw [if_pos (by omega), if_pos (by omega)]
    exact ⟨rfl, rfl, rfl, rfl⟩
  · rw [if_pos (by omega), if_neg (by omega)]
    exact ⟨rfl, rfl, rfl, rfl⟩
  · rw [if_neg (by omega)]
    refine ⟨rfl, rfl, rfl, ?_⟩
    by_cases hg : batch.activeSet % 2 ^ 31 = batch.queue0.buffer.length
    · rw [if_pos hg]
      apply List.getElem?_set_eq_of_lt
      simp only [List.length_append, List.length_replicate, scribeBufferGrowSize]
      omega
    · rw [if_neg hg]
      apply List.getElem?_set_eq_of_lt
      omega
  · rw [if_pos (by omega), if_pos (by omega)]
    exact ⟨rfl, rfl, rfl, rfl⟩
  · rw [if_pos (by omega), if_neg (by omega)]
    exact ⟨rfl, rfl, rfl, rfl⟩
  · rw [if_neg (by omega)]
    refine ⟨rfl, rfl, rfl, ?_⟩
    by_cases hg : batch.activeSet % 2 ^ 31 = batch.queue1.buffer.length
    · rw [if_pos hg]
      apply List.getElem?_set_eq_of_lt
      simp only [List.length_append, List.length_replicate, scribeBufferGrowSize]
      omega
    · rw [if_neg hg]
      apply List.getElem?_set_eq_of_lt
      omega

set_option maxRecDepth 8192 in
/-- Witness for append_decision_table: on a fresh batcher with
maxContentLen 10 an appended 3-byte message is accepted. -/
theorem append_decision_table_witness :
    ((createScribeStreamBuffer 10).Append "abc" "c").accepted = true :=
  ((append_decision_table (createScribeStreamBuffer 10) "abc" "c" (by decide)
      (by decide) (by decide)).2.2 (by decide)).1

theorem append_common_spec (batch : ScribeStreamBuffer) (msg category : String)
    (hset : batch.activeSet < 2 ^ 32)
    (hwc : batch.activeSet % 2 ^ 31 + 1 < 2 ^ 31) :
    (batch.Append msg category).batch.activeSet = batch.activeSet + 1 ∧
    ((batch.Append msg category).batch.getQueue (batch.activeSet / 2 ^ 31)).doneCount =
      ((batch.getQueue (batch.activeSet / 2 ^ 31)).doneCount + 1) % 2 ^ 32 ∧
    (batch.Append msg category).batch.getQueue (1 - batch.activeSet / 2 ^ 31) =
      batch.getQueue (1 - batch.activeSet / 2 ^ 31) := by
  have e1 := activeSet_succ_mod batch.activeSet hset hwc
  have e2 := activeSet_succ_idx batch.activeSet hset hwc
  have e3 := messageIdx_eq_wc batch.activeSet hset hwc
  have hdiv : batch.activeSet / 2 ^ 31 = 0 ∨ batch.activeSet / 2 ^ 31 = 1 := by omega
  rcases hdiv with h | h <;>
    simp only [h, ScribeStreamBuffer.Append, ScribeStreamBuffer.getQueue,
      ScribeStreamBuffer.setQueue, e1, e2, e3, eq_self_iff_true, Nat.one_ne_zero,
      ite_true, ite_false, Nat.sub_zero, Nat.sub_self] <;>
    split_ifs <;> exact ⟨rfl, rfl, rfl⟩

theorem append_store_spec (batch : ScribeStreamBuffer) (msg category : String)
    (hset : batch.activeSet < 2 ^ 32)
    (hwc : batch.activeSet % 2 ^ 31 + 1 < 2 ^ 31)
    (hbuf : batch.activeSet % 2 ^ 31 ≤ (batch.getQueue (batch.activeSet / 2 ^ 31)).buffer.length)
    (hstore : batch.storesMessage msg = true) :
    ((batch.Append msg category).batch.getQueue (batch.activeSet / 2 ^ 31)).buffer.take
        (batch.activeSet % 2 ^ 31 + 1) =
      (batch.getQueue (batch.activeSet / 2 ^ 31)).buffer.take (batch.activeSet % 2 ^ 31) ++
        [some { category := category, message := msg }] := by
  have e1 := activeSet_succ_mod batch.activeSet hset hwc
  have e2 := activeSet_succ_idx batch.activeSet hset hwc
  have e3 := messageIdx_eq_wc batch.activeSet hset hwc
  have hdiv : batch.activeSet / 2 ^ 31 = 0 ∨ batch.activeSet / 2 ^ 31 = 1 := by omega
  unfold ScribeStreamBuffer.storesMessage at hstore
  rcases hdiv with h | h <;>
    simp only [h, e1, e2, e3, ScribeStreamBuffer.getQueue, eq_self_iff_true,
      Nat.one_ne_zero, ite_true, ite_false, decide_eq_true_eq] at hstore hbuf ⊢ <;>
    simp only [h, ScribeStreamBuffer.Append, ScribeStreamBuffer.getQueue,
      ScribeStreamBuffer.setQueue, e1, e2, e3, eq_self_iff_true, Nat.one_ne_zero,
      ite_true, ite_false] <;>
    rw [if_neg (by omega)]
  · by_cases hg : batch.activeSet % 2 ^ 31 = batch.queue0.buffer.length
    · rw [if_pos hg]
      have hlt : batch.activeSet % 2 ^ 31 <
          (batch.queue0.buffer ++ List.replicate scribeBufferGrowSize none).length := by
        simp only [List.length_append, List.length_replicate, scribeBufferGrowSize]
        omega
      rw [take_set_succ _ _ _ hlt, List.take_append_of_le_length (le_of_eq hg)]
    · rw [if_neg hg]
      rw [take_set_succ _ _ _ (by omega)]
  · by_cases hg : batch.activeSet % 2 ^ 31 = batch.queue1.buffer.length
    · rw [if_pos hg]
      have hlt : batch.activeSet % 2 ^ 31 <
          (batch.queue1.buffer ++ List.replicate scribeBufferGrowSize none).length := by
        simp only [List.length_append, List.length_replicate, scribeBufferGrowSize]
        omega
      rw [take_set_succ _ _ _ hlt, List.take_append_of_le_length (le_of_eq hg)]
    · rw [if_neg hg]
      rw [take_set_succ _ _ _ (by omega)]



theorem flush_of_isEmpty (batch : ScribeStreamBuffer) (h : batch.isEmpty = true) :
    batch.flush = (batch, none) := by
  unfold ScribeStreamBuffer.flush
  rw [if_pos h]

theorem flush_spec (batch : ScribeStreamBuffer) (hset : batch.activeSet < 2 ^ 32)
    (hne : batch.isEmpty = false) :
    (batch.flush).2 =
      some ((batch.getQueue (batch.activeSet / 2 ^ 31)).buffer.take (batch.activeSet % 2 ^ 31)) ∧
    (batch.flush).1.activeSet % 2 ^ 31 = 0 ∧
    (batch.flush).1.activeSet < 2 ^ 32 ∧
    (batch.flush).1.activeSet / 2 ^ 31 = 1 - batch.activeSet / 2 ^ 31 ∧
    ((batch.flush).1.getQueue (batch.activeSet / 2 ^ 31)).doneCount = 0 ∧
    (batch.flush).1.getQueue (1 - batch.activeSet / 2 ^ 31) =
      batch.getQueue (1 - batch.activeSet / 2 ^ 31) := by
  have hdiv : batch.activeSet / 2 ^ 31 = 0 ∨ batch.activeSet / 2 ^ 31 = 1 := by omega
  have hcond : (2 ^ 31 ≤ batch.activeSet) ↔ batch.activeSet / 2 ^ 31 = 1 := by omega
  rcases hdiv with h | h
  · unfold ScribeStreamBuffer.flush
    rw [if_neg (by simp [hne])]
    rw [if_neg (by omega)]
    simp only [h, ScribeStreamBuffer.getQueue, ScribeStreamBuffer.setQueue,
      eq_self_iff_true, Nat.one_ne_zero, ite_true, ite_false, Nat.sub_zero, Nat.sub_self]
    norm_num
  · unfold ScribeStreamBuffer.flush
    rw [if_neg (by simp [hne])]
    rw [if_pos (by omega)]
    simp only [h, ScribeStreamBuffer.getQueue, ScribeStreamBuffer.setQueue,
      eq_self_iff_true, Nat.one_ne_zero, ite_true, ite_false, Nat.sub_zero, Nat.sub_self]
    norm_num



theorem DInv_append (b : ScribeStreamBuffer) (m c : String) (hD : DInv b)
    (hwc : b.activeSet % 2 ^ 31 + 1 < 2 ^ 31) : DInv (b.Append m c).batch := by
  obtain ⟨hset, hact, hinact⟩ := hD
  obtain ⟨ha, hd, ho⟩ := append_common_spec b m c hset hwc
  have e2 := activeSet_succ_idx b.activeSet hset hwc
  refine ⟨by omega, ?_, ?_⟩
  · rw [ha, e2, hd, hact]
    omega
  · rw [ha, e2, ho, hinact]

theorem DInv_flush (b : ScribeStreamBuffer) (hD : DInv b) : DInv (b.flush).1 := by
  obtain ⟨hset, hact, hinact⟩ := hD
  cases hem : b.isEmpty
  · obtain ⟨_, h0, h32, hdv, hdq, hoq⟩ := flush_spec b hset hem
    have hdiv : b.activeSet / 2 ^ 31 = 0 ∨ b.activeSet / 2 ^ 31 = 1 := by omega
    refine ⟨h32, ?_, ?_⟩
    · rw [h0, hdv, hoq, hinact]
    · have : 1 - (b.flush).1.activeSet / 2 ^ 31 = b.activeSet / 2 ^ 31 := by omega
      rw [this, hdq]
  · rw [flush_of_isEmpty b hem]
    exact ⟨hset, hact, hinact⟩

theorem DInv_run (ops : List ScribeOp) : ∀ b : ScribeStreamBuffer, DInv b →
    b.activeSet % 2 ^ 31 + countAppends ops < 2 ^ 31 → DInv (runOps b ops).batch := by
  induction ops with
  | nil => intro b hD _; exact hD
  | cons op ops ih =>
      intro b hD hcount
      cases op with
      | append m c =>
          simp only [runOps, countAppends] at hcount ⊢
          have hwc : b.activeSet % 2 ^ 31 + 1 < 2 ^ 31 := by omega
          have ha := (append_common_spec b m c hD.1 hwc).1
          refine ih _ (DInv_append b m c hD hwc) ?_
          rw [ha]
          omega
      | flush =>
          simp only [runOps, countAppends] at hcount ⊢
          refine ih _ (DInv_flush b hD) ?_
          cases hem : b.isEmpty
          · have := (flush_spec b hD.1 hem).2.1
            omega
          · rw [flush_of_isEmpty b hem]
            dsimp only
            have : b.activeSet % 2 ^ 31 = 0 := by
              simpa [ScribeStreamBuffer.isEmpty] using hem
            omega



theorem consInv_append (b : ScribeStreamBuffer) (m c : String)
    (pending : List LogEntry) (hI : ConsInv b pending)
    (hwc : b.activeSet % 2 ^ 31 + 1 < 2 ^ 31)
    (hstore : b.storesMessage m = true) :
    ConsInv (b.Append m c).batch (pending ++ [{ category := c, message := m }]) := by
  obtain ⟨hset, hlen, htake⟩ := hI
  have hbuf : b.activeSet % 2 ^ 31 ≤ (b.getQueue (b.activeSet / 2 ^ 31)).buffer.length := by
    have := congrArg List.length htake
    simp only [List.length_take, List.length_map] at this
    omega
  obtain ⟨ha, _, _⟩ := append_common_spec b m c hset hwc
  have e2 := activeSet_succ_idx b.activeSet hset hwc
  have hts := append_store_spec b m c hset hwc hbuf hstore
  refine ⟨by omega, ?_, ?_⟩
  · simp only [List.length_append, List.length_singleton, hlen, ha]
    omega
  · rw [ha, e2]
    have hwceq : (b.activeSet + 1) % 2 ^ 31 = b.activeSet % 2 ^ 31 + 1 :=
      activeSet_succ_wc b.activeSet hset hwc
    rw [hwceq, hts, htake, List.map_append]
    rfl

theorem conservation_aux (ops : List ScribeOp) : ∀ (b : ScribeStreamBuffer)
    (pending : List LogEntry), ConsInv b pending →
    b.activeSet % 2 ^ 31 + countAppends ops < 2 ^ 31 →
    allAppendsStore b ops = true →
    (runOps b ops).sinkBatches.flatten ++ (runOps b ops).batch.activeResidue =
      (pending ++ (runOps b ops).stored).map some := by
  induction ops with
  | nil =>
      intro b pending hI hcount _
      obtain ⟨hset, hlen, htake⟩ := hI
      simp only [runOps, List.flatten_nil, List.nil_append, List.append_nil]
      rw [ScribeStreamBuffer.activeResidue, htake]
  | cons op ops ih =>
      intro b pending hI hcount hall
      cases op with
      | append m c =>
          simp only [allAppendsStore, Bool.and_eq_true] at hall
          obtain ⟨hstore, hall⟩ := hall
          simp only [runOps, countAppends, hstore, ite_true] at hcount ⊢
          have hwc : b.activeSet % 2 ^ 31 + 1 < 2 ^ 31 := by omega
          have ha := (append_common_spec b m c hI.1 hwc).1
          have hI2 := consInv_append b m c pending hI hwc hstore
          have := ih (b.Append m c).batch (pending ++ [{ category := c, message := m }])
            hI2 (by rw [ha]; omega) hall
          rw [this]
          simp [List.append_assoc]
      | flush =>
          simp only [allAppendsStore] at hall
          simp only [runOps, countAppends] at hcount ⊢
          cases hem : b.isEmpty
          · obtain ⟨hout, h0, h32, hdv, hdq, hoq⟩ := flush_spec b hI.1 hem
            have hI2 : ConsInv (b.flush).1 [] := by
              refine ⟨h32, by simpa using h0.symm, ?_⟩
              rw [h0]
              simp
            have := ih (b.flush).1 [] hI2 (by omega) hall
            rw [hout]
            simp only [Option.toList_some, List.singleton_append, List.flatten_cons]
            rw [List.append_assoc, this]
            obtain ⟨hset, hlen, htake⟩ := hI
            rw [htake]
            simp [List.map_append]
          · rw [flush_of_isEmpty b hem] at hall ⊢
            dsimp only at hall ⊢
            have hwc0 : b.activeSet % 2 ^ 31 = 0 := by
              simpa [ScribeStreamBuffer.isEmpty] using hem
            have := ih b pending hI (by omega) hall
            simpa using this



set_option maxRecDepth 8192 in
/-- Counterexample to C2 as stated: with maxContentLen 10, store a 4-byte
entry, have an 8-byte append refused by the threshold, then flush.  The
slice handed to the sink covers the first writerCount slots, so it contains
the empty slot the refused append reserved: the sink receives an entry that
no Append stored. -/
theorem batcher_sink_gets_unstored_slot :
    ((runOps (createScribeStreamBuffer 10)
        [ScribeOp.append "aaaa" "c", ScribeOp.append "bbbbbbbb" "c",
          ScribeOp.flush]).sinkBatches.flatten ≠
      ((runOps (createScribeStreamBuffer 10)
        [ScribeOp.append "aaaa" "c", ScribeOp.append "bbbbbbbb" "c",
          ScribeOp.flush]).stored).map some) ∧
    none ∈ (runOps (createScribeStreamBuffer 10)
        [ScribeOp.append "aaaa" "c", ScribeOp.append "bbbbbbbb" "c",
          ScribeOp.flush]).sinkBatches.flatten := by
  decide

/-- C2 (amended): for any sequence of Append calls interleaved with flushes
in which every Append stores its message (none refused, none oversize), the
entries passed to the sink across all flushes, followed by the not yet
flushed residue of the active side, are exactly the stored entries in the
serialization order of the atomic counter.  When an Append is refused or
oversize-dropped, its reserved slot is still included in the slice the next
flush passes to the sink (see the counterexample). -/
theorem batcher_conservation (maxContentLen : Nat) (ops : List ScribeOp)
    (hcount : countAppends ops < 2 ^ 31)
    (hall : allAppendsStore (createScribeStreamBuffer maxContentLen) ops = true) :
    (runOps (createScribeStreamBuffer maxContentLen) ops).sinkBatches.flatten ++
        (runOps (createScribeStreamBuffer maxContentLen) ops).batch.activeResidue =
      ((runOps (createScribeStreamBuffer maxContentLen) ops).stored).map some := by
  have hI : ConsInv (createScribeStreamBuffer maxContentLen) [] := by
    refine ⟨?_, ?_, ?_⟩ <;>
      simp [createScribeStreamBuffer, ScribeStreamBuffer.getQueue, newMessageQueue, ConsInv]
  have := conservation_aux ops (createScribeStreamBuffer maxContentLen) [] hI
    (by simpa [createScribeStreamBuffer] using hcount) hall
  simpa using this

set_option maxRecDepth 8192 in
/-- Witness for batcher_conservation at a concrete run: one stored append
followed by a flush. -/
theorem batcher_conservation_witness :
    (runOps (createScribeStreamBuffer 10)
        [ScribeOp.append "aaaa" "c", ScribeOp.flush]).sinkBatches.flatten ++
        (runOps (createScribeStreamBuffer 10)
          [ScribeOp.append "aaaa" "c", ScribeOp.flush]).batch.activeResidue =
      ((runOps (createScribeStreamBuffer 10)
          [ScribeOp.append "aaaa" "c", ScribeOp.flush]).stored).map some :=
  batcher_conservation 10 [ScribeOp.append "aaaa" "c", ScribeOp.flush]
    (by decide) (by decide)

/-- C3: every Append increments the doneCount of the side it acquired a
slot on by exactly one before returning, whichever of the three outcomes
occurred (the increment is deferred and unconditional), and over any
sequential run from a fresh batcher the active side doneCount equals the
writer count in the low 31 bits of activeSet: every acquired slot has
returned, so doneCount is at most the writer count, with equality. -/
theorem doneCount_tracking :
    (∀ (batch : ScribeStreamBuffer) (msg category : String),
      batch.activeSet < 2 ^ 32 → batch.activeSet % 2 ^ 31 + 1 < 2 ^ 31 →
      (batch.getQueue batch.acquiredIdx).doneCount + 1 < 2 ^ 32 →
      ((batch.Append msg category).batch.getQueue batch.acquiredIdx).doneCount =
        (batch.getQueue batch.acquiredIdx).doneCount + 1) ∧
    (∀ (maxContentLen : Nat) (ops : List ScribeOp), countAppends ops < 2 ^ 31 →
      ((runOps (createScribeStreamBuffer maxContentLen) ops).batch.getQueue
          ((runOps (createScribeStreamBuffer maxContentLen) ops).batch.activeSet / 2 ^ 31)).doneCount =
        (runOps (createScribeStreamBuffer maxContentLen) ops).batch.activeSet % 2 ^ 31) := by
  constructor
  · intro batch msg category hset hwc hdone
    have hidx : batch.acquiredIdx = batch.activeSet / 2 ^ 31 := by
      unfold ScribeStreamBuffer.acquiredIdx
      have := activeSet_succ_mod batch.activeSet hset hwc
      omega
    rw [hidx] at hdone ⊢
    rw [(append_common_spec batch msg category hset hwc).2.1]
    omega
  · intro maxContentLen ops hcount
    have hD : DInv (createScribeStreamBuffer maxContentLen) := by
      refine ⟨?_, ?_, ?_⟩ <;>
        simp [createScribeStreamBuffer, ScribeStreamBuffer.getQueue, newMessageQueue, DInv]
    exact (DInv_run ops (createScribeStreamBuffer maxContentLen) hD
      (by simpa [createScribeStreamBuffer] using hcount)).2.1

set_option maxRecDepth 8192 in
/-- Witness for doneCount_tracking: a single append on a fresh batcher. -/
theorem doneCount_tracking_witness :
    (((createScribeStreamBuffer 10).Append "abc" "c").batch.getQueue
        (createScribeStreamBuffer 10).acquiredIdx).doneCount =
      ((createScribeStreamBuffer 10).getQueue (createScribeStreamBuffer 10).acquiredIdx).doneCount + 1 ∧
    ((runOps (createScribeStreamBuffer 10) [ScribeOp.append "abc" "c"]).batch.getQueue
        ((runOps (createScribeStreamBuffer 10) [ScribeOp.append "abc" "c"]).batch.activeSet / 2 ^ 31)).doneCount =
      (runOps (createScribeStreamBuffer 10) [ScribeOp.append "abc" "c"]).batch.activeSet % 2 ^ 31 :=
  ⟨doneCount_tracking.1 (createScribeStreamBuffer 10) "abc" "c" (by decide) (by decide) (by decide),
   doneCount_tracking.2 10 [ScribeOp.append "abc" "c"] (by decide)⟩



/-- C7: given that the embedded base Configure succeeds, File.Configure
returns a configuration error exactly when the plugin configuration has no
value for the key File. -/
theorem configure_error_iff_missing_file (cons : File) (conf : PluginConfig) :
    (File.Configure cons conf).isOk = conf.hasValue "File" := by
  unfold File.Configure
  cases h : conf.hasValue "File"
  · rw [if_pos rfl]
    rfl
  · rw [if_neg (by simp)]
    dsimp only
    split_ifs <;> rfl

/-- C10: any Offset value other than the exact strings Start, End and
Current takes the default switch branch, which falls through to the End
case: no configuration error, seek relative to end, no persistence. -/
theorem unknown_offset_treated_as_end (cons : File) (conf : PluginConfig)
    (hfile : conf.hasValue "File" = true)
    (h1 : conf.getString "Offset" fileOffsetEnd ≠ fileOffsetStart)
    (h2 : conf.getString "Offset" fileOffsetEnd ≠ fileOffsetContinue) :
    ∃ c, File.Configure cons conf = Except.ok c ∧
      c.seek = 2 ∧ c.seekOffset = 0 ∧ c.persistSeek = false := by
  unfold File.Configure
  rw [hfile]
  simp only [Bool.true_eq_false, ite_false]
  rw [if_neg h1, if_neg h2]
  exact ⟨_, rfl, rfl, rfl, rfl⟩

/-- Witness for unknown_offset_treated_as_end: the lowercase value start is
not recognized and yields the End behavior without error. -/
theorem unknown_offset_treated_as_end_witness :
    ∃ c, File.Configure emptyFile (mkConf [("File", "f.txt"), ("Offset", "start")]) =
        Except.ok c ∧ c.seek = 2 ∧ c.seekOffset = 0 ∧ c.persistSeek = false :=
  unknown_offset_treated_as_end emptyFile (mkConf [("File", "f.txt"), ("Offset", "start")])
    (by decide) (by decide) (by decide)

/-- C8: the Offset option maps Start to whence 1 with offset 0 and no
persistence (position 0 on a fresh open), Current to whence 1 with the
persisted offset and persistence enabled (position = persisted offset on a
fresh open), and End - the default, so also an absent key, whose value
getString then reports as End - to whence 2 with offset 0 and no
persistence (position = file size on a fresh open); after opening, the
consumer seeks by cons.file.Seek(cons.seekOffset, cons.seek). -/
theorem offset_mode_mapping (cons : File) (conf : PluginConfig) (fileSize : Int)
    (hfile : conf.hasValue "File" = true) :
    (conf.getString "Offset" fileOffsetEnd = fileOffsetStart →
      ∃ c, File.Configure cons conf = Except.ok c ∧
        c.seek = 1 ∧ c.seekOffset = 0 ∧ c.persistSeek = false ∧
        c.openSeekPosition fileSize = 0) ∧
    (conf.getString "Offset" fileOffsetEnd = fileOffsetContinue →
      ∃ c, File.Configure cons conf = Except.ok c ∧
        c.seek = 1 ∧ c.seekOffset = 0 ∧ c.persistSeek = true ∧
        ∀ persisted : Int,
          File.openSeekPosition { c with seekOffset := persisted } fileSize = persisted) ∧
    (conf.getString "Offset" fileOffsetEnd = fileOffsetEnd →
      ∃ c, File.Configure cons conf = Except.ok c ∧
        c.seek = 2 ∧ c.seekOffset = 0 ∧ c.persistSeek = false ∧
        c.openSeekPosition fileSize = fileSize) := by
  unfold File.Configure
  rw [hfile]
  simp only [Bool.true_eq_false, ite_false]
  refine ⟨fun h => ?_, fun h => ?_, fun h => ?_⟩
  · rw [if_pos h]
    exact ⟨_, rfl, rfl, rfl, rfl, by simp [File.openSeekPosition]⟩
  · rw [if_neg (by rw [h]; decide), if_pos h]
    exact ⟨_, rfl, rfl, rfl, rfl, fun persisted => by simp [File.openSeekPosition]⟩
  · rw [if_neg (by rw [h]; decide), if_neg (by rw [h]; decide)]
    exact ⟨_, rfl, rfl, rfl, rfl, by simp [File.openSeekPosition]⟩

/-- Witness for offset_mode_mapping: a configuration with Offset Current. -/
theorem offset_mode_mapping_witness :
    ∃ c, File.Configure emptyFile (mkConf [("File", "f.txt"), ("Offset", "Current")]) =
        Except.ok c ∧ c.seek = 1 ∧ c.seekOffset = 0 ∧ c.persistSeek = true ∧
        ∀ persisted : Int,
          File.openSeekPosition { c with seekOffset := persisted } (100 : Int) = persisted :=
  (offset_mode_mapping emptyFile (mkConf [("File", "f.txt"), ("Offset", "Current")])
    (100 : Int) (by decide)).2.1 (by decide)



theorem goParseInt64_clamps (s : String) :
    (decimalValue? s = none → goParseInt64 s = (0, false)) ∧
    (∀ v, decimalValue? s = some v →
      goParseInt64 s =
        if v < -(2 ^ 63 : Int) then (-(2 ^ 63 : Int), false)
        else if (2 ^ 63 : Int) ≤ v then ((2 ^ 63 : Int) - 1, false)
        else (v, true)) := by
  unfold goParseInt64 decimalValue?
  rcases hp : parseDecDigits (splitSign s).2 with _ | n <;> simp only [hp]
  · exact ⟨fun _ => trivial, fun v hv => by simp at hv⟩
  · constructor
    · intro hnone
      simp at hnone
    · intro v hv
      simp only [Option.some_inj] at hv
      rcases hb : (splitSign s).1 <;> rw [hb] at hv <;> subst hv <;>
        simp only [ite_true, ite_false, Bool.false_eq_true, if_false, if_true] <;>
        split_ifs <;> first | rfl | omega



/-- C6 (amended): initFile always ends in the Read state.  In persisting
mode it resets seekOffset to 0 and then loads the index file: a missing
file or a content that is not a signed decimal digit run leaves seekOffset
0 (even when a valid offset was held before); a decimal value within the
signed 64-bit range becomes the new seekOffset; a decimal value out of
that range does NOT leave 0 but stores the clamped int64 bound, because
Go ParseInt returns the clamped value together with its range error. -/
theorem initFile_offset_cases (cons : File)
    (evalSymlinks abs readFile : String → Option String) :
    (cons.initFile evalSymlinks abs readFile).state = fileState.fileStateRead ∧
    (cons.persistSeek = true →
      (readFile ("/tmp/gollum" ++
            replacePathChars (File.realFileName { cons with file := none } evalSymlinks abs) ++
            ".idx") = none →
        (cons.initFile evalSymlinks abs readFile).seekOffset = 0) ∧
      (∀ s, readFile ("/tmp/gollum" ++
            replacePathChars (File.realFileName { cons with file := none } evalSymlinks abs) ++
            ".idx") = some s →
        (decimalValue? s = none →
          (cons.initFile evalSymlinks abs readFile).seekOffset = 0) ∧
        (∀ v : Int, decimalValue? s = some v →
          (-(2 ^ 63 : Int) ≤ v → v < 2 ^ 63 →
            (cons.initFile evalSymlinks abs readFile).seekOffset = v) ∧
          ((2 ^ 63 : Int) ≤ v →
            (cons.initFile evalSymlinks abs readFile).seekOffset = (2 ^ 63 : Int) - 1) ∧
          (v < -(2 ^ 63 : Int) →
            (cons.initFile evalSymlinks abs readFile).seekOffset = -(2 ^ 63 : Int))))) := by
  constructor
  · unfold File.initFile
    rfl
  · intro hp
    unfold File.initFile
    rw [hp]
    simp only [ite_true]
    constructor
    · intro hr
      rw [hr]
    · intro s hr
      rw [hr]
      dsimp only
      constructor
      · intro hnone
        simp only [(goParseInt64_clamps s).1 hnone]
      · intro v hv
        rw [(goParseInt64_clamps s).2 v hv]
        refine ⟨fun h1 h2 => ?_, fun h1 => ?_, fun h1 => ?_⟩
        · rw [if_neg (by omega), if_neg (by omega)]
        · rw [if_neg (by omega), if_pos h1]
        · rw [if_pos h1]



/-- Counterexample to C6 as stated: with persistence active and an index
file containing 9223372036854775808 (one past the largest int64), Go
ParseInt fails with a range error, yet the assigned seekOffset is the
clamped bound 9223372036854775807 - neither 0 nor the written value. -/
theorem initFile_overflow_counterexample :
    (goParseInt64 "9223372036854775808").2 = false ∧
    (({ emptyFile with persistSeek := true, seekOffset := 42 } : File).initFile
          (fun _ => none) (fun _ => none)
          (fun _ => some "9223372036854775808")).seekOffset ≠ 0 ∧
    (({ emptyFile with persistSeek := true, seekOffset := 42 } : File).initFile
          (fun _ => none) (fun _ => none)
          (fun _ => some "9223372036854775808")).seekOffset ≠ 9223372036854775808 ∧
    (({ emptyFile with persistSeek := true, seekOffset := 42 } : File).initFile
          (fun _ => none) (fun _ => none)
          (fun _ => some "9223372036854775808")).seekOffset = 9223372036854775807 := by
  decide

/-- Witness for initFile_offset_cases: persistence active, index file
containing 99, final state Read and seekOffset 99. -/
theorem initFile_offset_cases_witness :
    (({ emptyFile with persistSeek := true } : File).initFile
        (fun _ => none) (fun _ => none) (fun _ => some "99")).state =
      fileState.fileStateRead ∧
    (({ emptyFile with persistSeek := true } : File).initFile
        (fun _ => none) (fun _ => none) (fun _ => some "99")).seekOffset = 99 :=
  ⟨(initFile_offset_cases { emptyFile with persistSeek := true }
      (fun _ => none) (fun _ => none) (fun _ => some "99")).1,
   ((((initFile_offset_cases { emptyFile with persistSeek := true }
      (fun _ => none) (fun _ => none) (fun _ => some "99")).2 rfl).2 "99" rfl).2 99
      (by decide)).1 (by decide) (by decide)⟩

/-- C5: in persisting mode the wrapping callback emits, in program order,
the Seek(0, 1) that records the current file position, the downstream post
of the message with the configured sequence, and the write of the decimal
position to the index file with permission 420 (the octal mode 0644), and
it stores the recorded position as the new seekOffset; whether the index
write fails has no effect on the result - the posted message and the
consumer state are identical. -/
theorem postAndPersist_spec (cons : File) (filePos : Int) (data : String)
    (sequence : Nat) (writeFails writeFails2 : Bool) :
    (File.postAndPersist cons filePos writeFails data sequence).2 =
      [FileOp.seek 0 1, FileOp.post data sequence,
        FileOp.writeIndex cons.continueFileName (toString filePos) 420] ∧
    (File.postAndPersist cons filePos writeFails data sequence).1.seekOffset = filePos ∧
    File.postAndPersist cons filePos writeFails data sequence =
      File.postAndPersist cons filePos writeFails2 data sequence :=
  ⟨rfl, rfl, rfl⟩

/-- C4 is contradicted by the code: the Read state open attempt at source
line 182 evaluates cons.realFileName() afresh on every attempt, so after a
retarget of the symlink a reopen (following a read error or a Roll) opens
the new target, not the path resolved during Open.  With the symlink link
pointing to /data/a.log at Open time and retargeted to /data/b.log before
the reopen, the reopened path is /data/b.log. -/
theorem reopen_resolves_symlink_afresh :
    File.readOpenPath { emptyFile with fileName := "link" }
        (fun s => if s = "link" then some "/data/a.log" else none) some = "/data/a.log" ∧
    File.readOpenPath { emptyFile with fileName := "link" }
        (fun s => if s = "link" then some "/data/b.log" else none) some = "/data/b.log" ∧
    ("/data/a.log" : String) ≠ "/data/b.log" := by
  decide



theorem openLogTrace_getD (outcomes : List Bool) (flag : Bool) (i : Nat)
    (h : i < outcomes.length) :
    (openLogTrace outcomes flag).getD i false =
      ((!(outcomes.getD i true)) && (if i = 0 then flag else outcomes.getD (i - 1) false)) := by
  induction outcomes generalizing flag i with
  | nil => simp at h
  | cons x rest ih =>
      cases i with
      | zero => cases x <;> simp [openLogTrace, File.openAttemptStep]
      | succ n =>
          have hlen : n < rest.length := by simpa using h
          have hx : (File.openAttemptStep flag x).printFileOpenError = x := by
            cases x <;> rfl
          simp only [openLogTrace, List.getD_cons_succ, hx]
          rw [ih x n hlen]
          cases n with
          | zero => simp
          | succ m => simp

/-- C9: while in the Read state with no handle held, a failed open attempt
logs the error only when printFileOpenError is still armed, then disarms
it, sleeps 3 seconds and stays in Read, while a successful open re-arms
it; consequently over any run of attempts the error is logged exactly at
the failures that start a failure streak (the first attempt, or a failure
directly after a success). -/
theorem open_failure_log_once (outcomes : List Bool) (i : Nat)
    (h : i < outcomes.length) :
    (∀ flag, (File.openAttemptStep flag false).logged = flag ∧
      (File.openAttemptStep flag false).sleptSeconds = 3 ∧
      (File.openAttemptStep flag false).state = fileState.fileStateRead ∧
      (File.openAttemptStep flag false).printFileOpenError = false ∧
      (File.openAttemptStep flag true).logged = false ∧
      (File.openAttemptStep flag true).printFileOpenError = true) ∧
    (openLogTrace outcomes true).getD i false =
      ((!(outcomes.getD i true)) && (decide (i = 0) || outcomes.getD (i - 1) false)) := by
  constructor
  · intro flag
    exact ⟨rfl, rfl, rfl, rfl, rfl, rfl⟩
  · rw [openLogTrace_getD outcomes true i h]
    cases i with
    | zero => simp
    | succ n => simp

/-- Witness for open_failure_log_once: in the run fail, fail, success,
fail the fourth attempt is a failure directly after a success and is
logged again. -/
theorem open_failure_log_once_witness :
    (openLogTrace [false, false, true, false] true).getD 3 false =
      ((!(([false, false, true, false] : List Bool).getD 3 true)) &&
        (decide ((3 : Nat) = 0) || ([false, false, true, false] : List Bool).getD 2 false)) :=
  (open_failure_log_once [false, false, true, false] 3 (by decide)).2

end Gollum

